import Mathlib

/-!
Verification of the iroha WSV (World State View) and stateful validator.

The stateful validator is embedded from
`src/irohad/validation/stateful/impl/stub_validator.cpp`.
The WSV command/query layer (`PostgresWsvCommand` / `PostgresWsvQuery`) and
`ametsuchi::TemporaryWsv` are exercised by the repository's tests but their
implementations are not part of the source tree considered here; they are
modelled from the specification (spec.md §3, §4.1–§4.3, §7) and checked for
consistency with `src/test/module/irohad/ametsuchi/wsv_query_command_test.cpp`.
-/

namespace Iroha

/-- Modelled from the spec: `Domain` entity (§3); the shared-model
`Domain` class is not in the source tree. -/
structure Domain where
  domainId : String
  defaultRole : String
  deriving DecidableEq

/-- Modelled from the spec: `Account` entity (§3); `jsonData` is the nested
mapping grantor-account-id → (key → value). The shared-model `Account`
class is not in the source tree. -/
structure Account where
  accountId : String
  domainId : String
  quorum : Nat
  jsonData : List (String × List (String × String))
  deriving DecidableEq

/-- Modelled from the spec: `Peer` entity (§3). -/
structure Peer where
  address : String
  publicKey : String
  deriving DecidableEq

/-- Modelled from the spec: `Asset` entity (§3). -/
structure Asset where
  assetId : String
  domainId : String
  precision : Nat
  deriving DecidableEq

/-- Modelled from the spec: the WSV's entity tables (§3); the persistence
engine underneath the WSV is outside the source tree. Roles are kept in
insertion order (§4.2 `getRoles`). -/
structure WsvState where
  roles : List String
  rolePermissions : List (String × String)
  domains : List Domain
  accounts : List Account
  accountRoles : List (String × String)
  grantablePermissions : List (String × String × String)
  peers : List Peer
  assets : List Asset
  deriving DecidableEq

def emptyWsv : WsvState := ⟨[], [], [], [], [], [], [], []⟩

/-- Modelled from the spec: the typed failures of the WSV Command Interface
(§4.1, §7); `WsvCommand` result types are not in the source tree. -/
inductive WsvError where
  | invalidName
  | alreadyExists
  | notFound
  deriving DecidableEq

/-- Modelled from the spec: `getRoles()` (§4.2), all role names in
insertion order. -/
def getRoles (s : WsvState) : List String :=
  s.roles

/-- Modelled from the spec: `getRolePermissions(role)` (§4.2); a role with
no permissions — or a never-inserted role — yields the empty sequence. -/
def getRolePermissions (s : WsvState) (role : String) : List String :=
  (s.rolePermissions.filter (fun pr => pr.1 == role)).map (fun pr => pr.2)

/-- Modelled from the spec: `getAccount(accountId)` (§4.2), optional result. -/
def getAccount (s : WsvState) (accountId : String) : Option Account :=
  s.accounts.find? (fun a => a.accountId == accountId)

/-- Modelled from the spec: `getAccountDetail(accountId)` (§4.2), the
account's jsonData, absent if the account is not found. -/
def getAccountDetail (s : WsvState) (accountId : String) :
    Option (List (String × List (String × String))) :=
  (getAccount s accountId).map (fun a => a.jsonData)

/-- Modelled from the spec: `getAccountRoles(accountId)` (§4.2); empty if
none or the account is absent. -/
def getAccountRoles (s : WsvState) (accountId : String) : List String :=
  (s.accountRoles.filter (fun pr => pr.1 == accountId)).map (fun pr => pr.2)

/-- Modelled from the spec: `hasAccountGrantablePermission` (§4.2); false in
all failure/absence cases. -/
def hasAccountGrantablePermission (s : WsvState)
    (grantee grantor permission : String) : Bool :=
  s.grantablePermissions.contains (grantee, grantor, permission)

/-- Modelled from the spec: `getDomain(domainId)` (§4.2), optional result. -/
def getDomain (s : WsvState) (domainId : String) : Option Domain :=
  s.domains.find? (fun d => d.domainId == domainId)

/-- Modelled from the spec: `getAsset(assetId)` (§4.2), optional result. -/
def getAsset (s : WsvState) (assetId : String) : Option Asset :=
  s.assets.find? (fun a => a.assetId == assetId)

/-- Modelled from the spec: `insertRole(name)` (§4.1) — fails with
`InvalidName` if the name is empty or longer than 45 characters, with
`AlreadyExists` on a duplicate. -/
def insertRole (name : String) (s : WsvState) : Except WsvError WsvState :=
  if name.length = 0 || 45 < name.length then .error .invalidName
  else if s.roles.contains name then .error .alreadyExists
  else .ok { s with roles := s.roles ++ [name] }

/-- Modelled from the spec: `insertRolePermissions(role, permissions)`
(§4.1) — fails with `NotFound` if the role is absent; otherwise adds all
permissions (set union, idempotent). -/
def insertRolePermissions (role : String) (perms : List String)
    (s : WsvState) : Except WsvError WsvState :=
  if s.roles.contains role then
    .ok { s with
          rolePermissions :=
            perms.foldl
              (fun acc p =>
                if acc.contains (role, p) then acc else acc ++ [(role, p)])
              s.rolePermissions }
  else .error .notFound

/-- Modelled from the spec: `insertDomain(domain)` (§4.1) — fails with
`NotFound` if the domain's defaultRole is absent. -/
def insertDomain (d : Domain) (s : WsvState) : Except WsvError WsvState :=
  if s.roles.contains d.defaultRole then
    .ok { s with domains := s.domains ++ [d] }
  else .error .notFound

/-- Modelled from the spec: `insertAccount(account)` (§4.1) — fails with
`NotFound` if the account's domain is absent; on success the account's
jsonData is stored verbatim. -/
def insertAccount (a : Account) (s : WsvState) : Except WsvError WsvState :=
  if (getDomain s a.domainId).isSome then
    .ok { s with accounts := s.accounts ++ [a] }
  else .error .notFound

/-- jsonb object key order used by the underlying store: shorter keys
first, equal lengths ordered lexicographically. -/
def jsonbKeyLt (a b : String) : Bool :=
  a.length < b.length || (a.length == b.length && a < b)

/-- Insert or replace a key in an association list kept in `jsonbKeyLt`
order, preserving every other entry. -/
def jsonbInsert {α : Type} (k : String) (v : α) :
    List (String × α) → List (String × α)
  | [] => [(k, v)]
  | (k2, v2) :: rest =>
      if k = k2 then (k, v) :: rest
      else if jsonbKeyLt k k2 then (k, v) :: (k2, v2) :: rest
      else (k2, v2) :: jsonbInsert k v rest

/-- Modelled from the spec: the jsonData merge rule (§3) — upsert `value`
under `jsonData[grantor][key]`, creating the grantor's sub-object if it
does not exist and preserving all other keys/sub-objects. -/
def kvUpsert (grantor key value : String)
    (d : List (String × List (String × String))) :
    List (String × List (String × String)) :=
  jsonbInsert grantor (jsonbInsert key value ((d.lookup grantor).getD [])) d

/-- Modelled from the spec: `setAccountKV(target, grantor, key, value)`
(§4.1) — fails with `NotFound` if the target account is absent; merges per
the rule in §3; the grantor is used only as a namespacing key and is not
validated as a foreign key. -/
def setAccountKV (target grantor key value : String) (s : WsvState) :
    Except WsvError WsvState :=
  match s.accounts.find? (fun a => a.accountId == target) with
  | none => .error .notFound
  | some _ =>
      .ok { s with
            accounts :=
              s.accounts.map (fun a =>
                if a.accountId == target then
                  { a with jsonData := kvUpsert grantor key value a.jsonData }
                else a) }

/-- Modelled from the spec: `insertAccountRole(accountId, role)` (§4.1) —
fails with `NotFound` if either side is absent; duplicate insert is
idempotent-safe. -/
def insertAccountRole (accountId roleName : String) (s : WsvState) :
    Except WsvError WsvState :=
  if (getAccount s accountId).isSome && s.roles.contains roleName then
    .ok { s with
          accountRoles :=
            if s.accountRoles.contains (accountId, roleName) then
              s.accountRoles
            else s.accountRoles ++ [(accountId, roleName)] }
  else .error .notFound

/-- Modelled from the spec: `deleteAccountRole(accountId, role)` (§4.1) —
a no-op success if the pair is absent. -/
def deleteAccountRole (accountId roleName : String) (s : WsvState) :
    Except WsvError WsvState :=
  .ok { s with
        accountRoles :=
          s.accountRoles.filter
            (fun pr => !(pr.1 == accountId && pr.2 == roleName)) }

/-- Modelled from the spec: `insertAccountGrantablePermission` (§4.1) —
fails with `NotFound` if either account is absent. -/
def insertAccountGrantablePermission
    (permittee grantor permission : String) (s : WsvState) :
    Except WsvError WsvState :=
  if (getAccount s permittee).isSome && (getAccount s grantor).isSome then
    .ok { s with
          grantablePermissions :=
            if s.grantablePermissions.contains
                (permittee, grantor, permission) then
              s.grantablePermissions
            else s.grantablePermissions ++ [(permittee, grantor, permission)] }
  else .error .notFound

/-- Modelled from the spec: `deleteAccountGrantablePermission` (§4.1) —
never fails (idempotent absence). -/
def deleteAccountGrantablePermission
    (permittee grantor permission : String) (s : WsvState) :
    Except WsvError WsvState :=
  .ok { s with
        grantablePermissions :=
          s.grantablePermissions.filter
            (fun g => !(g == (permittee, grantor, permission))) }

/-- Modelled from the spec: `insertPeer(peer)` (§4.1) — presence-keyed
insert. -/
def insertPeer (p : Peer) (s : WsvState) : Except WsvError WsvState :=
  .ok { s with peers := if s.peers.contains p then s.peers else s.peers ++ [p] }

/-- Modelled from the spec: `deletePeer(peer)` (§4.1) — delete of an
absent peer succeeds. -/
def deletePeer (p : Peer) (s : WsvState) : Except WsvError WsvState :=
  .ok { s with peers := s.peers.filter (fun q => !(q == p)) }

/-- Modelled from the spec: each command is all-or-nothing per call
(§4.1); the state observable after an attempted command is the new state
on success and the untouched previous state on failure. -/
def applyCommand (cmd : WsvState → Except WsvError WsvState)
    (s : WsvState) : WsvState :=
  match cmd s with
  | .ok s2 => s2
  | .error _ => s

/-- Modelled from the spec: the underlying store, which may be
uninitialized or broken (§7 StorageUnavailable, §8 DatabaseInvalid);
`none` is a store whose required schema is missing. -/
abbrev Storage := Option WsvState

/-- Modelled from the spec: `getRoles` against a possibly broken store —
degrades to absence (§7). -/
def Storage.getRoles (st : Storage) : Option (List String) :=
  st.map (fun s => Iroha.getRoles s)

/-- Modelled from the spec: `getRolePermissions` against a possibly broken
store — degrades to absence (§7). -/
def Storage.getRolePermissions (st : Storage) (role : String) :
    Option (List String) :=
  st.map (fun s => Iroha.getRolePermissions s role)

/-- Modelled from the spec: `getAccount` against a possibly broken store —
degrades to absence (§7). -/
def Storage.getAccount (st : Storage) (accountId : String) : Option Account :=
  st.bind (fun s => Iroha.getAccount s accountId)

/-- Modelled from the spec: `getAccountDetail` against a possibly broken
store — degrades to absence (§7). -/
def Storage.getAccountDetail (st : Storage) (accountId : String) :
    Option (List (String × List (String × String))) :=
  st.bind (fun s => Iroha.getAccountDetail s accountId)

/-- Modelled from the spec: `getAccountRoles` against a possibly broken
store — degrades to absence (§7). -/
def Storage.getAccountRoles (st : Storage) (accountId : String) :
    Option (List String) :=
  st.map (fun s => Iroha.getAccountRoles s accountId)

/-- Modelled from the spec: `hasAccountGrantablePermission` against a
possibly broken store — degrades to `false`, never a hard error (§4.2, §7). -/
def Storage.hasAccountGrantablePermission (st : Storage)
    (grantee grantor permission : String) : Bool :=
  match st with
  | none => false
  | some s => Iroha.hasAccountGrantablePermission s grantee grantor permission

/-- Modelled from the spec: `getDomain` against a possibly broken store —
degrades to absence (§7). -/
def Storage.getDomain (st : Storage) (domainId : String) : Option Domain :=
  st.bind (fun s => Iroha.getDomain s domainId)

/-- Modelled from the spec: `getAsset` against a possibly broken store —
degrades to absence (§7). -/
def Storage.getAsset (st : Storage) (assetId : String) : Option Asset :=
  st.bind (fun s => Iroha.getAsset s assetId)

/-- Modelled from the spec: a `dao::Transaction` is an ordered sequence of
commands with a declared acting account (§3, §6); `dao/dao.hpp` is not in
the source tree. The command type is kept abstract, as the validator in
`stub_validator.cpp` never inspects commands itself. -/
structure Transaction (Cmd : Type) where
  creator : String
  commands : List Cmd
  deriving DecidableEq

/-- Modelled from the spec: a `dao::Proposal` is an ordered sequence of
transactions (§3); `dao/dao.hpp` is not in the source tree. -/
structure Proposal (Cmd : Type) where
  transactions : List (Transaction Cmd)
  deriving DecidableEq

/-- The command loop of the `checking_transaction` lambda in
`ValidatorStub::validate` (stub_validator.cpp lines 31–37): each command
is executed first, then `command_validator.validate(*command)` is
consulted — with the command as its only argument — and the loop returns
`false` at the first command the validator rejects. The executor's
mutation of the Temporary WSV is the explicit state threading. -/
def checkingCommands {Cmd St : Type} (validate : Cmd → Bool)
    (execute : St → Cmd → St) : List Cmd → St → Bool × St
  | [], s => (true, s)
  | c :: cs, s =>
      let s2 := execute s c
      if validate c then checkingCommands validate execute cs s2
      else (false, s2)

/-- The `checking_transaction` callback of `ValidatorStub::validate`
(stub_validator.cpp lines 29–39): it receives the transaction and loops
over `tx.commands`; the transaction's creator is never consulted. -/
def checkingTransaction {Cmd St : Type} (validate : Cmd → Bool)
    (execute : St → Cmd → St) (tx : Transaction Cmd) (s : St) : Bool × St :=
  checkingCommands validate execute tx.commands s

/-- Modelled from the spec: the per-command loop of §4.3/§4.4 as the spec
words it — after each command is applied, the Permission Model is
consulted as a predicate over both the command and the acting account
(`validate(command, actingAccount)`). Written from the spec's words, for
comparison with `checkingCommands`, which is embedded from the code. -/
def checkingCommandsSpec {Cmd St : Type} (validate : Cmd → String → Bool)
    (execute : St → Cmd → St) (creator : String) : List Cmd → St → Bool × St
  | [], s => (true, s)
  | c :: cs, s =>
      let s2 := execute s c
      if validate c creator then checkingCommandsSpec validate execute creator cs s2
      else (false, s2)

/-- Modelled from the spec: §4.4's `validate(command, actingAccount)`
consulted after each command of the transaction, the acting account being
the transaction's declared creator (§6). For comparison with
`checkingTransaction`, which is embedded from the code. -/
def checkingTransactionSpec {Cmd St : Type} (validate : Cmd → String → Bool)
    (execute : St → Cmd → St) (tx : Transaction Cmd) (s : St) : Bool × St :=
  checkingCommandsSpec validate execute tx.creator tx.commands s

/-- Modelled from the spec: `TemporaryWsv::apply(tx, callback)` (§4.3);
the implementation of `ametsuchi::TemporaryWsv` is not in the source tree.
If the callback reports failure, the whole transaction's effect on the
Temporary WSV is reverted; if it succeeds, the effects remain visible for
subsequent transactions. -/
def TemporaryWsv.apply {Cmd St : Type}
    (callback : Transaction Cmd → St → Bool × St)
    (tx : Transaction Cmd) (s : St) : Bool × St :=
  match callback tx s with
  | (true, s2) => (true, s2)
  | (false, _) => (false, s)

/-- `ValidatorStub::validate` (stub_validator.cpp lines 26–54): a left
fold (`std::accumulate`) over the proposal's transactions; each
transaction is trial-applied through `TemporaryWsv::apply` with the
`checking_transaction` callback and appended to the accumulator when the
answer is positive. The C++ `filter` lambda's rejecting branch reads
`else acc;` without a `return`; its evident intent — leave the
accumulator unchanged — is what is embedded. The Temporary WSV, mutated
in place in the C++, is threaded alongside the accumulator. -/
def ValidatorStub.validate {Cmd St : Type} (validator : Cmd → Bool)
    (execute : St → Cmd → St) (proposal : Proposal Cmd) (s : St) :
    Proposal Cmd :=
  Proposal.mk
    (proposal.transactions.foldl
      (fun acc tx =>
        let answer :=
          TemporaryWsv.apply (checkingTransaction validator execute) tx acc.2
        if answer.1 then (acc.1 ++ [tx], answer.2) else (acc.1, answer.2))
      ([], s)).1

/-- Modelled from the spec: the Stateful Validator as §4.5 words it — a
one-pass, order-preserving, stateful filter: a rejected transaction is
dropped and leaves the Temporary WSV unchanged; an accepted transaction
is kept and its effects stay visible for the remaining transactions.
Written from the spec's words, for comparison with
`ValidatorStub.validate`, which is embedded from the code. -/
def specFilter {Cmd St : Type} (validator : Cmd → Bool)
    (execute : St → Cmd → St) : List (Transaction Cmd) → St → List (Transaction Cmd)
  | [], _ => []
  | tx :: txs, s =>
      match TemporaryWsv.apply (checkingTransaction validator execute) tx s with
      | (true, s2) => tx :: specFilter validator execute txs s2
      | (false, _) => specFilter validator execute txs s

/-- Sequential execution of a list of commands, with no validation:
used to state which commands a checking run has executed. -/
def execCommands {Cmd St : Type} (execute : St → Cmd → St)
    (cs : List Cmd) (s : St) : St :=
  cs.foldl execute s

/-- Lookup of `jsonData[grantor][key]`: the value stored for `key` inside
the grantor's sub-object, absent when either level is missing. -/
def jsonLookup (d : List (String × List (String × String)))
    (g k : String) : Option String :=
  (d.lookup g).bind (fun m => m.lookup k)

/-- The account of the repository's `AccountTest` fixture:
`id@domain` with `jsonData = {"id@domain": {"key": "value"}}`. -/
def testAccount : Account :=
  ⟨"id@domain", "domain", 1, [("id@domain", [("key", "value")])]⟩

/-- The WSV of the repository's `AccountTest` fixture after its `SetUp`:
role `role`, domain `domain`, and `testAccount` inserted. -/
def testState : WsvState :=
  ⟨["role"], [], [⟨"domain", "role"⟩], [testAccount], [], [], [], []⟩

/-- The `AccountTest` fixture extended with one account role, one
grantable permission and one peer, for the delete-of-absent cases. -/
def testStateFull : WsvState :=
  ⟨["role"], [], [⟨"domain", "role"⟩], [testAccount],
   [("id@domain", "role")], [("id2@domain", "id@domain", "permission")],
   [⟨"0.0.0.0:50051", "pk"⟩], []⟩

/-- A 45-character role name, at the length limit. -/
def roleName45 : String := String.mk (List.replicate 45 'a')

/-- A 46-character role name, one character over the length limit. -/
def roleName46 : String := String.mk (List.replicate 46 'a')

end Iroha

deriving instance DecidableEq for Except

namespace Iroha

/-- C4: `insertRole(name)` fails with `InvalidName` when the name is empty
or longer than 45 characters — leaving the role table unchanged — and a
45-character name inserts successfully; after a failed insert of a
46-character name the role table still holds no roles. -/
theorem insertRole_length_boundary :
    ∀ (s : WsvState) (name : String), name.length = 0 ∨ 45 < name.length →
      insertRole name s = .error .invalidName
      ∧ applyCommand (insertRole name) s = s
      ∧ (insertRole roleName45 emptyWsv).isOk = true
      ∧ getRoles (applyCommand (insertRole roleName46) emptyWsv) = [] := by
  intro s name h
  have herr : insertRole name s = .error .invalidName := by
    unfold insertRole
    rcases h with h | h <;> simp [h]
  refine ⟨herr, ?_, by decide, by decide⟩
  unfold applyCommand
  rw [herr]

/-- Closed witness for `insertRole_length_boundary`, at the 46-character
name of the role-name boundary test. -/
theorem insertRole_length_boundary_witness :
    (roleName46.length = 0 ∨ 45 < roleName46.length)
    ∧ (insertRole roleName46 emptyWsv = .error .invalidName
       ∧ applyCommand (insertRole roleName46) emptyWsv = emptyWsv
       ∧ (insertRole roleName45 emptyWsv).isOk = true
       ∧ getRoles (applyCommand (insertRole roleName46) emptyWsv) = []) :=
  ⟨by decide, insertRole_length_boundary emptyWsv roleName46 (by decide)⟩

/-- C6: `setAccountKV` succeeds exactly when the target account exists —
in particular it succeeds for every grantor argument, whether or not that
grantor exists as an account — and when the target is absent the failure
is `NotFound`. -/
theorem setAccountKV_target_only_foreign_key :
    ∀ (s : WsvState) (target grantor key value : String),
      (setAccountKV target grantor key value s).isOk = (getAccount s target).isSome
      ∧ (getAccount s target = none ↔
          setAccountKV target grantor key value s = .error .notFound) := by
  intro s target grantor key value
  unfold setAccountKV getAccount
  cases h : s.accounts.find? (fun a => a.accountId == target) <;>
    simp [h, Except.isOk, Except.toBool]

/-- Looking up the key just inserted by `jsonbInsert` finds the new value. -/
theorem lookup_jsonbInsert_self {α : Type} (k : String) (v : α)
    (l : List (String × α)) : (jsonbInsert k v l).lookup k = some v := by
  induction l with
  | nil => simp [jsonbInsert, List.lookup]
  | cons hd tl ih =>
    obtain ⟨k2, v2⟩ := hd
    by_cases hk : k = k2
    · simp [jsonbInsert, hk, List.lookup]
    · by_cases hlt : jsonbKeyLt k k2
      · simp [jsonbInsert, hk, hlt, List.lookup]
      · simp [jsonbInsert, hk, hlt, List.lookup, beq_false_of_ne hk, ih]

/-- `jsonbInsert` leaves the binding of every other key unchanged. -/
theorem lookup_jsonbInsert_ne {α : Type} (k k2 : String) (v : α)
    (l : List (String × α)) (h : k2 ≠ k) :
    (jsonbInsert k v l).lookup k2 = l.lookup k2 := by
  induction l with
  | nil => simp [jsonbInsert, List.lookup, beq_false_of_ne h]
  | cons hd tl ih =>
    obtain ⟨k3, v3⟩ := hd
    by_cases hk : k = k3
    · subst hk
      simp [jsonbInsert, List.lookup, beq_false_of_ne h]
    · by_cases hlt : jsonbKeyLt k k3
      · simp [jsonbInsert, hk, hlt, List.lookup, beq_false_of_ne h]
      · simp only [jsonbInsert, if_neg hk, if_neg hlt, List.lookup]
        cases k2 == k3 <;> simp [ih]

/-- `List.find?` commutes with a map that does not disturb the predicate. -/
theorem find?_map_pred {α : Type} (f : α → α) (p : α → Bool)
    (hp : ∀ a, p (f a) = p a) (l : List α) :
    (l.map f).find? p = (l.find? p).map f := by
  induction l with
  | nil => rfl
  | cons a t ih =>
    simp only [List.map_cons, List.find?_cons, hp a]
    cases hpa : p a <;> simp [ih]

/-- The merge rule, at the level of `jsonLookup`: the upserted cell holds
the new value and every other cell is unchanged. -/
theorem jsonLookup_kvUpsert (grantor key value g k : String)
    (d : List (String × List (String × String))) :
    jsonLookup (kvUpsert grantor key value d) g k =
      if g = grantor ∧ k = key then some value
      else jsonLookup d g k := by
  unfold jsonLookup kvUpsert
  by_cases hg : g = grantor
  · subst hg
    rw [lookup_jsonbInsert_self]
    by_cases hk : k = key
    · subst hk
      simp [lookup_jsonbInsert_self]
    · rw [if_neg (by simp [hk])]
      simp only [Option.bind]
      rw [lookup_jsonbInsert_ne key k value _ hk]
      cases hd : d.lookup g
      · simp [List.lookup]
      · simp [List.lookup]
  · rw [lookup_jsonbInsert_ne grantor g _ _ hg, if_neg (by simp [hg])]

/-- C5: on an existing target account, `setAccountKV` succeeds and upserts
the value at `jsonData[grantor][key]` of that account, while every other
grantor/key cell of the account's jsonData reads exactly as before. -/
theorem setAccountKV_merge_preserves :
    ∀ (s : WsvState) (target grantor key value : String) (a : Account),
      getAccount s target = some a →
      ∃ s2, setAccountKV target grantor key value s = .ok s2
        ∧ ∃ a2, getAccount s2 target = some a2
          ∧ a2.jsonData = kvUpsert grantor key value a.jsonData
          ∧ ∀ g k, jsonLookup a2.jsonData g k =
              if g = grantor ∧ k = key then some value
              else jsonLookup a.jsonData g k := by
  intro s target grantor key value a ha
  unfold getAccount at ha
  unfold setAccountKV
  rw [ha]
  refine ⟨_, rfl, ?_⟩
  have hpa0 := List.find?_some ha
  have hpa : (a.accountId == target) = true := hpa0
  have hmap :
      (s.accounts.map (fun x =>
          if x.accountId == target then
            { x with jsonData := kvUpsert grantor key value x.jsonData }
          else x)).find? (fun x => x.accountId == target) =
        (s.accounts.find? (fun x => x.accountId == target)).map (fun x =>
          if x.accountId == target then
            { x with jsonData := kvUpsert grantor key value x.jsonData }
          else x) := by
    refine find?_map_pred _ _ (fun x => ?_) s.accounts
    by_cases hx : x.accountId == target <;> simp [hx]
  refine ⟨{ a with jsonData := kvUpsert grantor key value a.jsonData },
    ?_, rfl, ?_⟩
  · unfold getAccount
    rw [hmap, ha]
    rw [Option.map_some', if_pos hpa]
  · intro g k
    exact jsonLookup_kvUpsert grantor key value g k a.jsonData

/-- Closed witness for `setAccountKV_merge_preserves`, at the repository's
`AccountTest` fixture. -/
theorem setAccountKV_merge_preserves_witness :
    getAccount testState "id@domain" = some testAccount
    ∧ ∃ s2, setAccountKV "id@domain" "admin" "id" "val" testState = .ok s2
        ∧ ∃ a2, getAccount s2 "id@domain" = some a2
          ∧ a2.jsonData = kvUpsert "admin" "id" "val" testAccount.jsonData
          ∧ ∀ g k, jsonLookup a2.jsonData g k =
              if g = "admin" ∧ k = "id" then some "val"
              else jsonLookup testAccount.jsonData g k :=
  ⟨rfl, setAccountKV_merge_preserves testState "id@domain" "admin" "id" "val"
    testAccount rfl⟩

/-- A command that fails leaves the observable state untouched. -/
theorem applyCommand_error (cmd : WsvState → Except WsvError WsvState)
    (s : WsvState) (e : WsvError) (h : cmd s = .error e) :
    applyCommand cmd s = s := by
  unfold applyCommand
  rw [h]

/-- C7: inserts that reference another entity enforce referential
integrity atomically — `insertAccountRole` with an absent account or an
absent role, `insertRolePermissions` with an absent role, and
`insertAccountGrantablePermission` with either account absent all fail
with `NotFound` and leave the state (hence every subsequent query)
exactly as it was. -/
theorem referential_integrity_inserts :
    ∀ (s : WsvState) (a r : String),
      getAccount s a = none → s.roles.contains r = false →
      (∀ r2, insertAccountRole a r2 s = .error .notFound
        ∧ applyCommand (insertAccountRole a r2) s = s)
      ∧ (∀ a2, insertAccountRole a2 r s = .error .notFound
        ∧ applyCommand (insertAccountRole a2 r) s = s)
      ∧ (∀ perms, insertRolePermissions r perms s = .error .notFound
        ∧ applyCommand (insertRolePermissions r perms) s = s)
      ∧ (∀ gr p, insertAccountGrantablePermission a gr p s = .error .notFound
        ∧ applyCommand (insertAccountGrantablePermission a gr p) s = s)
      ∧ (∀ ge p, insertAccountGrantablePermission ge a p s = .error .notFound
        ∧ applyCommand (insertAccountGrantablePermission ge a p) s = s) := by
  intro s a r ha hr
  have hrm : r ∉ s.roles := by simpa using hr
  refine ⟨fun r2 => ?_, fun a2 => ?_, fun perms => ?_,
    fun gr p => ?_, fun ge p => ?_⟩ <;>
    refine (fun herr => ⟨herr, applyCommand_error _ _ _ herr⟩) ?_
  · simp [insertAccountRole, ha]
  · simp [insertAccountRole, hrm]
  · simp [insertRolePermissions, hrm]
  · simp [insertAccountGrantablePermission, ha]
  · simp [insertAccountGrantablePermission, ha]

/-- Closed witness for `referential_integrity_inserts`, at the
`AccountRoleTest`/`AccountGrantablePermissionTest` fixture with a
nonexistent account id and a nonexistent role name. -/
theorem referential_integrity_inserts_witness :
    getAccount testState "no@domain" = none
    ∧ testState.roles.contains "norole" = false
    ∧ insertAccountRole "no@domain" "role" testState = .error .notFound
    ∧ applyCommand (insertAccountRole "no@domain" "role") testState = testState
    ∧ insertAccountRole "id@domain" "norole" testState = .error .notFound
    ∧ insertRolePermissions "norole" ["permission"] testState = .error .notFound
    ∧ insertAccountGrantablePermission "no@domain" "id@domain" "permission"
        testState = .error .notFound
    ∧ insertAccountGrantablePermission "id@domain" "no@domain" "permission"
        testState = .error .notFound := by
  have h := referential_integrity_inserts testState "no@domain" "norole"
    (by decide) (by decide)
  exact ⟨by decide, by decide, (h.1 "role").1, (h.1 "role").2,
    (h.2.1 "id@domain").1, (h.2.2.1 ["permission"]).1,
    (h.2.2.2.1 "id@domain" "permission").1,
    (h.2.2.2.2 "id@domain" "permission").1⟩

/-- C8: deleting an absent AccountRole pair, an absent grantable
permission, or an absent peer succeeds and returns the state completely
unchanged — so no existing pair is removed. -/
theorem idempotent_absent_delete :
    ∀ (s : WsvState) (a r ge gr p : String) (peer : Peer),
      (a, r) ∉ s.accountRoles →
      (ge, gr, p) ∉ s.grantablePermissions →
      peer ∉ s.peers →
      deleteAccountRole a r s = .ok s
      ∧ deleteAccountGrantablePermission ge gr p s = .ok s
      ∧ deletePeer peer s = .ok s := by
  intro s a r ge gr p peer h1 h2 h3
  refine ⟨?_, ?_, ?_⟩
  · unfold deleteAccountRole
    have hf : s.accountRoles.filter
        (fun pr => !(pr.1 == a && pr.2 == r)) = s.accountRoles := by
      refine List.filter_eq_self.mpr (fun x hx => ?_)
      have hne : x ≠ (a, r) := fun he => h1 (he ▸ hx)
      rcases x with ⟨x1, x2⟩
      by_cases hx1 : x1 = a
      · by_cases hx2 : x2 = r
        · exact absurd (by rw [hx1, hx2]) hne
        · simp [beq_false_of_ne hx2]
      · simp [beq_false_of_ne hx1]
    rw [hf]
  · unfold deleteAccountGrantablePermission
    have hf : s.grantablePermissions.filter
        (fun g => !(g == (ge, gr, p))) = s.grantablePermissions := by
      refine List.filter_eq_self.mpr (fun x hx => ?_)
      have hne : x ≠ (ge, gr, p) := fun he => h2 (he ▸ hx)
      simp [beq_false_of_ne hne]
    rw [hf]
  · unfold deletePeer
    have hf : s.peers.filter (fun q => !(q == peer)) = s.peers := by
      refine List.filter_eq_self.mpr (fun x hx => ?_)
      have hne : x ≠ peer := fun he => h3 (he ▸ hx)
      simp [beq_false_of_ne hne]
    rw [hf]

/-- Closed witness for `idempotent_absent_delete`: deleting an
AccountRole pair with a nonexistent account, a never-granted permission
and an unknown peer from the populated fixture keeps the state — with its
existing pair — intact. -/
theorem idempotent_absent_delete_witness :
    (("no", "role") ∉ testStateFull.accountRoles)
    ∧ (("id@domain", "id2@domain", "permission") ∉
        testStateFull.grantablePermissions)
    ∧ ((⟨"1.2.3.4:50051", "pk2"⟩ : Peer) ∉ testStateFull.peers)
    ∧ (deleteAccountRole "no" "role" testStateFull = .ok testStateFull
       ∧ deleteAccountGrantablePermission "id@domain" "id2@domain" "permission"
           testStateFull = .ok testStateFull
       ∧ deletePeer ⟨"1.2.3.4:50051", "pk2"⟩ testStateFull = .ok testStateFull) :=
  ⟨by decide, by decide, by decide,
    idempotent_absent_delete testStateFull "no" "role" "id@domain"
      "id2@domain" "permission" ⟨"1.2.3.4:50051", "pk2"⟩
      (by decide) (by decide) (by decide)⟩

/-- `TemporaryWsv.apply` keeps the callback's final state exactly when
the callback succeeded, and restores the initial state otherwise. -/
theorem apply_cases {Cmd St : Type}
    (cb : Transaction Cmd → St → Bool × St) (tx : Transaction Cmd) (s : St) :
    TemporaryWsv.apply cb tx s =
      if (cb tx s).1 then (true, (cb tx s).2) else (false, s) := by
  unfold TemporaryWsv.apply
  cases h : cb tx s with
  | mk b s2 => cases b <;> simp

/-- The accumulator of `ValidatorStub.validate`'s fold is the already
accepted prefix followed by the spec's order-preserving filter of the
remaining transactions. -/
theorem validate_foldl_spec {Cmd St : Type} (v : Cmd → Bool)
    (e : St → Cmd → St) :
    ∀ (txs : List (Transaction Cmd)) (acc : List (Transaction Cmd)) (s : St),
      (txs.foldl
        (fun acc tx =>
          let answer :=
            TemporaryWsv.apply (checkingTransaction v e) tx acc.2
          if answer.1 then (acc.1 ++ [tx], answer.2) else (acc.1, answer.2))
        (acc, s)).1 = acc ++ specFilter v e txs s := by
  intro txs
  induction txs with
  | nil => intro acc s; simp [specFilter]
  | cons tx rest ih =>
    intro acc s
    simp only [List.foldl_cons, specFilter]
    rw [apply_cases]
    cases hc : (checkingTransaction v e tx s).1
    · simp only [Bool.false_eq_true, if_false]
      exact ih acc s
    · simp only [if_true]
      rw [ih (acc ++ [tx]) (checkingTransaction v e tx s).2]
      simp

/-- `specFilter` never reorders or duplicates: its output is a sublist of
its input. -/
theorem specFilter_sublist {Cmd St : Type} (v : Cmd → Bool)
    (e : St → Cmd → St) :
    ∀ (txs : List (Transaction Cmd)) (s : St),
      (specFilter v e txs s).Sublist txs := by
  intro txs
  induction txs with
  | nil => intro s; simp [specFilter]
  | cons tx rest ih =>
    intro s
    simp only [specFilter]
    cases hap : TemporaryWsv.apply (checkingTransaction v e) tx s with
    | mk b s2 =>
      cases b
      · exact (ih s).cons tx
      · exact (ih s2).cons₂ tx

/-- C1: `ValidatorStub::validate` returns exactly the transactions whose
trial application succeeded at their turn, in their original relative
order — it equals the spec's sequential order-preserving filter, whose
output is a sublist of the input (no re-ordering, no deduplication) — and
on a proposal [T1 valid, T2 invalid, T3 valid] the output is [T1, T3]. -/
theorem validate_is_order_preserving_filter :
    (∀ (Cmd St : Type) (v : Cmd → Bool) (e : St → Cmd → St)
        (txs : List (Transaction Cmd)) (s : St),
      (ValidatorStub.validate v e (Proposal.mk txs) s).transactions =
          specFilter v e txs s
        ∧ (specFilter v e txs s).Sublist txs)
    ∧ ValidatorStub.validate (fun n => n != 2) (fun (s : Nat) _ => s)
        (Proposal.mk [⟨"u", [1]⟩, ⟨"u", [2]⟩, ⟨"u", [3]⟩]) 0 =
      Proposal.mk [⟨"u", [1]⟩, ⟨"u", [3]⟩] := by
  constructor
  · intro Cmd St v e txs s
    constructor
    · unfold ValidatorStub.validate
      exact validate_foldl_spec v e txs [] s
    · exact specFilter_sublist v e txs s
  · decide

/-- C2: when the checking callback rejects a transaction — some command
of it failed validation — `TemporaryWsv.apply` returns the Temporary WSV
to exactly its state from before that transaction, so no command of the
rejected transaction (including ones that executed before the failing
one) is visible afterwards. -/
theorem apply_reverts_rejected_transaction :
    ∀ (Cmd St : Type) (v : Cmd → Bool) (e : St → Cmd → St)
      (tx : Transaction Cmd) (s : St),
      (checkingTransaction v e tx s).1 = false →
      TemporaryWsv.apply (checkingTransaction v e) tx s = (false, s) := by
  intro Cmd St v e tx s h
  rw [apply_cases, h]
  simp

/-- Closed witness for `apply_reverts_rejected_transaction`: a
transaction whose first command executes (adding 5) and whose second
command fails validation leaves the state at its original value 0. -/
theorem apply_reverts_rejected_transaction_witness :
    (checkingTransaction (fun n => n != 666) (fun (s : Nat) c => s + c)
      ⟨"u", [5, 666]⟩ 0).1 = false
    ∧ TemporaryWsv.apply
        (checkingTransaction (fun n => n != 666) (fun (s : Nat) c => s + c))
        ⟨"u", [5, 666]⟩ 0 = (false, 0) :=
  ⟨by decide,
    apply_reverts_rejected_transaction Nat Nat _ _ ⟨"u", [5, 666]⟩ 0 (by decide)⟩

/-- C3 (counterexample): the code's checking callback passes only the
command to `command_validator.validate` — two transactions identical but
for their acting account are indistinguishable to it — whereas the
spec-worded `validate(command, actingAccount)` predicate distinguishes
them. -/
theorem checking_ignores_acting_account_cex :
    checkingTransaction (fun _ : Nat => true) (fun (s : Nat) _ => s)
        ⟨"alice", [0]⟩ 0 =
      checkingTransaction (fun _ : Nat => true) (fun (s : Nat) _ => s)
        ⟨"bob", [0]⟩ 0
    ∧ checkingTransactionSpec (fun (_ : Nat) acct => acct == "alice")
        (fun (s : Nat) _ => s) ⟨"alice", [0]⟩ 0 ≠
      checkingTransactionSpec (fun (_ : Nat) acct => acct == "alice")
        (fun (s : Nat) _ => s) ⟨"bob", [0]⟩ 0 :=
  ⟨rfl, by decide⟩

/-- C3 (amended): during validation of each transaction the commands are
applied one at a time, in order, and after each command is applied the
validator is consulted as a predicate over the command alone; the acting
account is not passed to it, so the verdict is independent of the
transaction's acting account. -/
theorem checking_post_command_validation_command_only :
    ∀ (Cmd St : Type) (v : Cmd → Bool) (e : St → Cmd → St)
      (cr1 cr2 : String) (c : Cmd) (cmds : List Cmd) (s : St),
      checkingTransaction v e ⟨cr1, cmds⟩ s =
          checkingTransaction v e ⟨cr2, cmds⟩ s
      ∧ checkingTransaction v e ⟨cr1, c :: cmds⟩ s =
          (if v c then checkingTransaction v e ⟨cr1, cmds⟩ (e s c)
           else (false, e s c)) := by
  intro Cmd St v e cr1 cr2 c cmds s
  exact ⟨rfl, rfl⟩

/-- C10: the checking loop executes commands sequentially and returns
rejection at the first command the validator rejects: after a prefix of
validated commands and one failing command, the resulting state is that
of executing exactly the prefix and the failing command — the commands
after the first failing one are never executed. -/
theorem checking_stops_at_first_failure :
    ∀ (Cmd St : Type) (v : Cmd → Bool) (e : St → Cmd → St)
      (pre post : List Cmd) (c : Cmd) (s : St),
      (∀ x ∈ pre, v x = true) → v c = false →
      checkingCommands v e (pre ++ c :: post) s =
        (false, execCommands e (pre ++ [c]) s) := by
  intro Cmd St v e pre
  induction pre with
  | nil =>
    intro post c s _ hc
    simp [checkingCommands, execCommands, hc]
  | cons x xs ih =>
    intro post c s hpre hc
    have hx : v x = true := hpre x (List.mem_cons_self x xs)
    simp only [List.cons_append, checkingCommands, hx, if_true,
      execCommands, List.foldl_cons]
    exact ih post c (e s x) (fun y hy => hpre y (List.mem_cons_of_mem x hy)) hc

/-- Closed witness for `checking_stops_at_first_failure`: with commands
[5] ++ 666 :: [7, 8], validation fails at 666 and only 5 and 666 reach
the executor. -/
theorem checking_stops_at_first_failure_witness :
    (∀ x ∈ ([5] : List Nat), (fun n => n != 666) x = true)
    ∧ ((fun n : Nat => n != 666) 666 = false)
    ∧ checkingCommands (fun n => n != 666) (fun (s : Nat) c => s + c)
        ([5] ++ 666 :: [7, 8]) 0 =
      (false, execCommands (fun (s : Nat) c => s + c) ([5] ++ [666]) 0) :=
  ⟨by decide, by decide,
    checking_stops_at_first_failure Nat Nat _ _ [5] [7, 8] 666 0
      (by decide) (by decide)⟩

/-- C9: against an uninitialized or broken store, every query returns
absence (`none`, or `false` for the boolean query) rather than an error. -/
theorem broken_storage_queries_degrade :
    ∀ (accountId role grantee grantor permission assetId domainId : String),
      Storage.getAccount none accountId = none
      ∧ Storage.getAccountDetail none accountId = none
      ∧ Storage.getRoles none = none
      ∧ Storage.getRolePermissions none role = none
      ∧ Storage.getAccountRoles none accountId = none
      ∧ Storage.hasAccountGrantablePermission none grantee grantor permission = false
      ∧ Storage.getDomain none domainId = none
      ∧ Storage.getAsset none assetId = none := by
  intro _ _ _ _ _ _ _
  exact ⟨rfl, rfl, rfl, rfl, rfl, rfl, rfl, rfl⟩

end Iroha
